import Mathlib

/-!
Verification development for the OpenCE-Reimpl continual-learning loop
(`appworld_experiment`): a shallow embedding of the playbook knowledge store
(`appworld_playbook.py`), the delta model (`appworld_delta.py`), semantic
deduplication (`appworld_deduplication.py`), the unit-test report parser
(`experiment_logger.py`) and the adapter's per-task interaction loop and
deduplication scheduling (`appworld_adaptation.py`), together with theorems
settling the specified properties.

Python dictionaries are modeled as insertion-ordered association lists with
Python `dict` semantics: assignment to an existing key replaces the value in
place, assignment to a fresh key appends at the end.  Uncaught Python
exceptions are modeled by `Option`-valued functions returning `none`.
-/

namespace OpenCE

/-- Python `d.get(k)` / `d[k]` lookup on an insertion-ordered dict. -/
def dictGet {β : Type} : List (String × β) → String → Option β
  | [], _ => none
  | (k', v) :: rest, k => if k' = k then some v else dictGet rest k

/-- Python `d[k] = v`: replace in place if the key exists (dict keys are
unique, so replacing the first occurrence is exact), else append. -/
def dictSet {β : Type} : List (String × β) → String → β → List (String × β)
  | [], k, v => [(k, v)]
  | (k', v') :: rest, k, v =>
    if k' = k then (k, v) :: rest else (k', v') :: dictSet rest k v

/-- Python `d.pop(k, None)` / `del d[k]`: drop the entry for `k`. -/
def eraseKey {β : Type} : List (String × β) → String → List (String × β)
  | [], _ => []
  | (k', v) :: rest, k =>
    if k' = k then eraseKey rest k else (k', v) :: eraseKey rest k

/-- Python `d.setdefault(sec, []).append(id)` on the section index. -/
def setdefaultAppend : List (String × List String) → String → String →
    List (String × List String)
  | [], sec, tid => [(sec, [tid])]
  | (k, ids) :: rest, sec, tid =>
    if k = sec then (k, ids ++ [tid]) :: rest
    else (k, ids) :: setdefaultAppend rest sec tid

/-- A single playbook entry (`Tip` dataclass in `appworld_playbook.py`).
The Python `section` field is named `sectionName` because `section` is a
Lean keyword.  The `created_at`/`updated_at` timestamps produced by
`datetime.now(...)` are threaded in explicitly as strings. -/
structure Tip where
  id : String
  sectionName : String
  content : String
  scenario_tags : List String
  created_at : String
  updated_at : String
  deriving Repr, DecidableEq

/-- `Tip.apply_tags`: append each tag not already present, in order;
a duplicate tag is skipped (with a warning in the source). -/
def Tip.apply_tags (t : Tip) (tags : List String) : Tip :=
  { t with
    scenario_tags :=
      tags.foldl
        (fun acc tag => if tag ∈ acc then acc else acc ++ [tag])
        t.scenario_tags }

/-- The playbook state: `_tips` (tip-id → `Tip`), `_sections`
(section → ordered list of tip ids) and the id-generation counter
`_next_id` of the `Playbook` class. -/
structure Playbook where
  tips : List (String × Tip)
  sections : List (String × List String)
  next_id : Int
  deriving Repr, DecidableEq

/-- `Playbook()`: the empty playbook. -/
def Playbook.empty : Playbook := { tips := [], sections := [], next_id := 0 }

/-- Python `f"{n:05d}"`: decimal rendering zero-padded to width 5. -/
def pad5 (n : Int) : String :=
  if n < 0 then
    let s := toString (-n)
    "-" ++ (if s.length < 4 then
      String.mk (List.replicate (4 - s.length) '0') ++ s else s)
  else
    let s := toString n
    if s.length < 5 then
      String.mk (List.replicate (5 - s.length) '0') ++ s else s

/-- Python `s.lower()`: character-wise lowercasing (CPython and this model
agree on the ASCII section names and operation types in play). -/
def strLower (s : String) : String := String.mk (s.data.map Char.toLower)

/-- Python `s.upper()`: character-wise uppercasing. -/
def strUpper (s : String) : String := String.mk (s.data.map Char.toUpper)

/-- Python `s.split()[0]`: the first whitespace-delimited word, or `none`
when the string has none (in which case `s.split()[0]` raises
`IndexError`). -/
def firstWord (s : String) : Option String :=
  let w := (s.data.dropWhile Char.isWhitespace).takeWhile
    (fun c => !c.isWhitespace)
  if w.isEmpty then none else some (String.mk w)

/-- `Playbook._generate_id`: increment `_next_id` and build
`"{section-prefix}-{counter:05d}"` from the lowercased first word of the
section.  Returns `none` when `section.split()` is empty (`IndexError`). -/
def Playbook.generate_id (p : Playbook) (sectionName : String) :
    Option (String × Playbook) :=
  match firstWord sectionName with
  | none => none
  | some w =>
    let nid := p.next_id + 1
    some (strLower w ++ "-" ++ pad5 nid, { p with next_id := nid })

/-- `Playbook.add_tip`: keep a supplied `tip_id` only when it is not `None`
and not already taken, otherwise generate one; then store the tip and
append its id to its section's list.  `none` models the uncaught
`IndexError` from `_generate_id` on a section without a first word. -/
def Playbook.add_tip (p : Playbook) (sectionName content : String)
    (tip_id : Option String) (scenario_tags : List String) (now : String) :
    Option Playbook :=
  let chosen : Option (String × Playbook) :=
    match tip_id with
    | some t =>
      if (dictGet p.tips t).isSome then p.generate_id sectionName
      else some (t, p)
    | none => p.generate_id sectionName
  match chosen with
  | none => none
  | some (tid, p') =>
    let tip : Tip :=
      { id := tid, sectionName := sectionName, content := content,
        scenario_tags := scenario_tags, created_at := now, updated_at := now }
    some
      { p' with
        tips := dictSet p'.tips tid tip,
        sections := setdefaultAppend p'.sections sectionName tid }

/-- `Playbook.update_tip`: no-op on an unknown id; otherwise replace the
content when given, union new tags in, and refresh `updated_at`. -/
def Playbook.update_tip (p : Playbook) (tip_id : String)
    (content : Option String) (scenario_tags : Option (List String))
    (now : String) : Playbook :=
  match dictGet p.tips tip_id with
  | none => p
  | some tip =>
    let tip := match content with
      | some c => { tip with content := c }
      | none => tip
    let tip := match scenario_tags with
      | some tags => tip.apply_tags tags
      | none => tip
    let tip := { tip with updated_at := now }
    { p with tips := dictSet p.tips tip_id tip }

/-- `Playbook.tag_tip`: union tags into an existing tip; no-op if unknown. -/
def Playbook.tag_tip (p : Playbook) (tip_id : String) (tags : List String) :
    Playbook :=
  match dictGet p.tips tip_id with
  | none => p
  | some tip => { p with tips := dictSet p.tips tip_id (tip.apply_tags tags) }

/-- `Playbook.remove_tip`: pop the tip from the tip map, filter its id out
of its section's list, and delete the section entry when it becomes empty;
no-op if the id is unknown. -/
def Playbook.remove_tip (p : Playbook) (tip_id : String) : Playbook :=
  match dictGet p.tips tip_id with
  | none => p
  | some tip =>
    let tips' := eraseKey p.tips tip_id
    match dictGet p.sections tip.sectionName with
    | none => { p with tips := tips' }
    | some ids =>
      if ids.isEmpty then { p with tips := tips' }
      else
        let filtered := ids.filter (fun i => i ≠ tip_id)
        if filtered.isEmpty then
          { p with
            tips := tips',
            sections := eraseKey p.sections tip.sectionName }
        else
          { p with
            tips := tips',
            sections := dictSet p.sections tip.sectionName filtered }

/-- A single mutation to apply to the playbook (`DeltaOperation` dataclass in
`appworld_delta.py`).  The Python `section` field is named `sectionName`. -/
structure DeltaOperation where
  type : String
  sectionName : String
  content : Option String
  tip_id : Option String
  scenario_tags : List String
  deriving Repr, DecidableEq

/-- Bundle of curator reasoning and operations (`DeltaBatch` dataclass). -/
structure DeltaBatch where
  reasoning : String
  operations : List DeltaOperation
  deriving Repr, DecidableEq

/-- `Playbook._apply_operation`: dispatch on the upper-cased operation type;
UPDATE/TAG/REMOVE without a `tip_id` and unknown operation types are
silently skipped.  `none` models the uncaught `IndexError` an ADD raises
through `add_tip` → `_generate_id` when the section has no first word. -/
def Playbook.apply_operation (p : Playbook) (op : DeltaOperation)
    (now : String) : Option Playbook :=
  let t := strUpper op.type
  if t = "ADD" then
    p.add_tip op.sectionName (op.content.getD "") op.tip_id op.scenario_tags
      now
  else if t = "UPDATE" then
    match op.tip_id with
    | none => some p
    | some tid => some (p.update_tip tid op.content (some op.scenario_tags) now)
  else if t = "TAG" then
    match op.tip_id with
    | none => some p
    | some tid => some (p.tag_tip tid op.scenario_tags)
  else if t = "REMOVE" then
    match op.tip_id with
    | none => some p
    | some tid => some (p.remove_tip tid)
  else some p

/-- `Playbook.apply_delta`: apply every operation in order; an uncaught
exception from an operation aborts the batch (modeled by `none`). -/
def Playbook.apply_delta (p : Playbook) (delta : DeltaBatch) (now : String) :
    Option Playbook :=
  delta.operations.foldlM (fun q op => q.apply_operation op now) p

/-- `OllamaDeduplicator.find_duplicates`, parameterized by the pairwise
content matcher `matcher new existing`.  In the embedding branch of the
source the matcher is "cosine similarity of the Ollama embeddings exceeds
the threshold" (an external network call); in the fallback branch it is
`fallbackMatch`.  Both branches return, in order, the ids of the new
bullets whose content matches at least one existing bullet's content, and
both return `[]` when either input dict is empty. -/
def find_duplicates (matcher : String → String → Bool)
    (new_bullets existing_bullets : List (String × String)) : List String :=
  if new_bullets.isEmpty || existing_bullets.isEmpty then []
  else
    (new_bullets.filter
      (fun nb => existing_bullets.any (fun eb => matcher nb.2 eb.2))).map
      Prod.fst

/-- The fallback matcher of `find_duplicates`: case-insensitive exact match
or substring containment in either direction. -/
def fallbackMatch (a b : String) : Bool :=
  let na := strLower a
  let nb := strLower b
  na == nb || decide (na.toList.IsInfix nb.toList) ||
    decide (nb.toList.IsInfix na.toList)

/-- `Playbook.deduplicate`: partition the playbook's tips into "new" (the
given ids that exist) and "existing" (all others), delegate to the
deduplicator's `find_duplicates`, remove the returned ids, and return
them. -/
def Playbook.deduplicate (p : Playbook)
    (find_dups : List (String × String) → List (String × String) →
      List String)
    (tip_ids : List String) : List String × Playbook :=
  let new_tips : List (String × String) :=
    tip_ids.foldl
      (fun acc tid =>
        match dictGet p.tips tid with
        | some tip => dictSet acc tid tip.content
        | none => acc)
      []
  let existing_tips : List (String × String) :=
    (p.tips.filter (fun kv => (dictGet new_tips kv.1).isNone)).map
      (fun kv => (kv.1, kv.2.content))
  let duplicate_ids := find_dups new_tips existing_tips
  (duplicate_ids, duplicate_ids.foldl (fun q tid => q.remove_tip tid) p)

/-- JSON-compatible values, as produced and consumed by
`Playbook.to_dict` / `Playbook.from_dict`.  The Python string layer
(`json.dumps` / `json.loads`) is the standard library, out of scope per the
spec; it is modeled as the identity on JSON values, which is faithful
because `json.loads` inverts `json.dumps` on every value `to_dict`
produces. -/
inductive JsonValue where
  | str : String → JsonValue
  | num : Int → JsonValue
  | bool : Bool → JsonValue
  | null : JsonValue
  | arr : List JsonValue → JsonValue
  | obj : List (String × JsonValue) → JsonValue
  deriving Repr

/-- `dataclasses.asdict(tip)`: the tip as a JSON object, fields in
declaration order. -/
def Tip.to_json (t : Tip) : JsonValue :=
  .obj [("id", .str t.id), ("section", .str t.sectionName),
    ("content", .str t.content),
    ("scenario_tags", .arr (t.scenario_tags.map .str)),
    ("created_at", .str t.created_at), ("updated_at", .str t.updated_at)]

/-- Decode a JSON array expected to hold strings.  Python stores the list
as-is; the typed model narrows to string elements and fails otherwise. -/
def decodeStrList : List JsonValue → Option (List String)
  | [] => some []
  | .str s :: rest => (decodeStrList rest).map (fun xs => s :: xs)
  | _ :: _ => none

/-- `Tip(**tip_value)`: keyword construction of a `Tip`.  `id`, `section`
and `content` are required; `scenario_tags`, `created_at` and `updated_at`
have dataclass defaults (the `datetime.now` defaults are modeled as `""`);
an unknown keyword raises `TypeError` (modeled as `none`), and the typed
model also requires each present field to have its declared type. -/
def Tip.from_kwargs (fields : List (String × JsonValue)) : Option Tip :=
  if fields.all (fun f =>
      f.1 == "id" || f.1 == "section" || f.1 == "content" ||
      f.1 == "scenario_tags" || f.1 == "created_at" ||
      f.1 == "updated_at") then
    match dictGet fields "id", dictGet fields "section",
        dictGet fields "content" with
    | some (.str i), some (.str s), some (.str c) =>
      let tags? : Option (List String) :=
        match dictGet fields "scenario_tags" with
        | none => some []
        | some (.arr xs) => decodeStrList xs
        | some _ => none
      let ca? : Option String :=
        match dictGet fields "created_at" with
        | none => some ""
        | some (.str x) => some x
        | some _ => none
      let ua? : Option String :=
        match dictGet fields "updated_at" with
        | none => some ""
        | some (.str x) => some x
        | some _ => none
      match tags?, ca?, ua? with
      | some tags, some ca, some ua => some (Tip.mk i s c tags ca ua)
      | _, _, _ => none
    | _, _, _ => none
  else none

/-- `Playbook.to_dict`: `{"tips": {...}, "sections": {...}, "next_id": n}`. -/
def Playbook.to_dict (p : Playbook) : JsonValue :=
  .obj [("tips", .obj (p.tips.map (fun kv => (kv.1, kv.2.to_json)))),
    ("sections",
      .obj (p.sections.map (fun kv => (kv.1, .arr (kv.2.map .str))))),
    ("next_id", .num p.next_id)]

/-- `list(ids) if isinstance(ids, Iterable) else []` from
`Playbook.from_dict`: arrays yield their elements (the typed model requires
strings), a string is iterable over its characters, an object is iterable
over its keys, and non-iterable values yield `[]`. -/
def jsonToIdList : JsonValue → Option (List String)
  | .arr xs => decodeStrList xs
  | .str s => some (s.data.map (fun c => String.mk [c]))
  | .obj fields => some (fields.map Prod.fst)
  | _ => some []

/-- The tip-map reconstruction loop of `Playbook.from_dict`:
`tips_payload = payload.get("tips", {})`, then — when it is a dict — for
each entry that is itself a dict, `instance._tips[tip_id] = Tip(**tip_value)`
(whose `TypeError` on bad keywords propagates); non-dict entries and a
non-dict `tips` payload are skipped. -/
def decodeTips : Option JsonValue → Option (List (String × Tip))
  | some (.obj tfs) =>
    tfs.foldlM
      (fun acc kv =>
        match kv.2 with
        | .obj tfields => do
          let tip ← Tip.from_kwargs tfields
          pure (dictSet acc kv.1 tip)
        | _ => pure acc)
      ([] : List (String × Tip))
  | some _ => some []
  | none => some []

/-- The section-index reconstruction of `Playbook.from_dict`:
`sections_payload = payload.get("sections", {})`, then the dict
comprehension `{section: list(ids) if isinstance(ids, Iterable) else []}`. -/
def decodeSections : Option JsonValue → Option (List (String × List String))
  | some (.obj sfs) =>
    sfs.foldlM
      (fun acc kv => do
        let ids ← jsonToIdList kv.2
        pure (dictSet acc kv.1 ids))
      ([] : List (String × List String))
  | some _ => some []
  | none => some []

/-- `int(payload.get("next_id", 0))` from `Playbook.from_dict`: absent
defaults to 0; `int()` accepts ints, bools and digit strings and raises
(`none`) on lists, dicts and `None`. -/
def decodeNextId : Option JsonValue → Option Int
  | none => some 0
  | some (.num n) => some n
  | some (.str s) => s.toInt?
  | some (.bool b) => some (if b then 1 else 0)
  | some _ => none

/-- `Playbook.from_dict` on the fields of the payload object: rebuild the
tip map, the section index, and the id counter via the three blocks
above. -/
def Playbook.from_dict (payload : List (String × JsonValue)) :
    Option Playbook := do
  let tips ← decodeTips (dictGet payload "tips")
  let sections ← decodeSections (dictGet payload "sections")
  let nid ← decodeNextId (dictGet payload "next_id")
  pure { tips := tips, sections := sections, next_id := nid }

/-- `Playbook.dumps`: serialize the whole internal state (the JSON string
layer is modeled as the identity on JSON values). -/
def Playbook.dumps (p : Playbook) : JsonValue := p.to_dict

/-- `Playbook.loads`: reject non-object payloads (`ValueError`), else
delegate to `from_dict`. -/
def Playbook.loads (data : JsonValue) : Option Playbook :=
  match data with
  | .obj fields => Playbook.from_dict fields
  | _ => none

/-- Digits of a regex `(\d+)` group as a number (`int(...)` in Python). -/
def digitsToNat (ds : List Char) : Nat :=
  ds.foldl (fun a c => a * 10 + (c.toNat - 48)) 0

/-- Match `re` pattern `Num Passed Tests\s*:\s*(\d+)` at the head of `cs`,
returning the captured number.  The character classes are disjoint from the
following literals, so maximal-munch matching coincides with the regex
engine's greedy backtracking. -/
def matchPassedAt (cs : List Char) : Option Nat :=
  let lit := "Num Passed Tests".data
  if lit.isPrefixOf cs then
    let cs := (cs.drop lit.length).dropWhile Char.isWhitespace
    match cs with
    | ':' :: cs =>
      let cs := cs.dropWhile Char.isWhitespace
      let ds := cs.takeWhile Char.isDigit
      if ds.isEmpty then none else some (digitsToNat ds)
    | _ => none
  else none

/-- Match `re` pattern `Num Total\s+Tests\s*:\s*(\d+)` at the head of `cs`. -/
def matchTotalAt (cs : List Char) : Option Nat :=
  let lit := "Num Total".data
  if lit.isPrefixOf cs then
    let cs := cs.drop lit.length
    let ws := cs.takeWhile Char.isWhitespace
    if ws.isEmpty then none
    else
      let cs := cs.dropWhile Char.isWhitespace
      let lit2 := "Tests".data
      if lit2.isPrefixOf cs then
        let cs := (cs.drop lit2.length).dropWhile Char.isWhitespace
        match cs with
        | ':' :: cs =>
          let cs := cs.dropWhile Char.isWhitespace
          let ds := cs.takeWhile Char.isDigit
          if ds.isEmpty then none else some (digitsToNat ds)
        | _ => none
      else none
  else none

/-- `re.search`: try the matcher at each position from the left and return
the first (leftmost) match. -/
def searchFirst (m : List Char → Option Nat) : List Char → Option Nat
  | [] => m []
  | c :: rest =>
    match m (c :: rest) with
    | some n => some n
    | none => searchFirst m rest

/-- `parse_unit_test_results` from `experiment_logger.py`: empty (falsy)
input yields `(0, 0)`; otherwise regex-extract the passed and total counts,
each defaulting to `0` when its pattern is absent. -/
def parse_unit_test_results (s : String) : Nat × Nat :=
  if s.isEmpty then (0, 0)
  else
    ((searchFirst matchPassedAt s.data).getD 0,
      (searchFirst matchTotalAt s.data).getD 0)

/-- `tgc = 1.0 if unit_tests_passed == unit_tests_total else 0.0` from
`AppWorldAdapterBase._process_sample`. -/
def tgcOf (passed total : Nat) : ℚ :=
  if passed = total then 1 else 0

/-- Generator output consumed by the interaction loop (`GeneratorOutput`
in `src/opence/methods/ace/roles.py`; `raw` is irrelevant here). -/
structure GenOutput where
  reasoning : String
  bullet_ids : List String
  final_answer : String
  deriving Repr, DecidableEq

/-- Modelled from the spec: one `Step` record of a `Trajectory`
(`appworld_experiment/trajectory.py` is not under `src/`): the reasoning,
consulted bullet ids, executed code and observation text appended by
`Trajectory.add_step` in `_process_sample`. -/
structure StepRec where
  reasoning : String
  bullet_ids : List String
  code : String
  observation : String
  deriving Repr, DecidableEq

/-- Modelled from the spec: a `Trajectory` is the task text, the ordered
step records, and a terminal `execution_status` string
(`appworld_experiment/trajectory.py` is not under `src/`). -/
structure Trajectory where
  task : String
  steps : List StepRec
  execution_status : String
  deriving Repr, DecidableEq

/-- The `ExecutionStatus` enum of `appworld_adaptation.py`. -/
inductive ExecutionStatus where
  | completed
  | max_steps_reached
  | crashed
  deriving Repr, DecidableEq

/-- The `.value` string of each `ExecutionStatus` member. -/
def ExecutionStatus.value : ExecutionStatus → String
  | .completed => "completed"
  | .max_steps_reached => "max_steps_reached"
  | .crashed => "crashed"

/-- One iteration state of the interaction loop of
`AppWorldAdapterBase._process_sample`: accumulated steps, environment call
log, and the retained last generator output.  The environment and the
Generator are injected collaborators, modeled as oracles indexed by the
interaction step number: `gen i` is the Generator's output at step `i`
(`none` = retry exhaustion), `execOut i` the `output` field of
`execute_code`, and `completed i` the `is_task_completed` reply. -/
def loopAux (gen : Nat → Option GenOutput) (execOut : Nat → String)
    (isCompleted : Nat → Bool) :
    Nat → Nat → List StepRec → List String → Option GenOutput →
    List StepRec × ExecutionStatus × List String × Option GenOutput
  | 0, _, steps, calls, finalOut =>
    (steps, .max_steps_reached, calls, finalOut)
  | rem + 1, i, steps, calls, finalOut =>
    match gen i with
    | none => (steps, .crashed, calls, finalOut)
    | some g =>
      let st : StepRec :=
        { reasoning := g.reasoning, bullet_ids := g.bullet_ids,
          code := g.final_answer,
          observation := "Output: " ++ execOut i ++ "\n" }
      let steps' := steps ++ [st]
      let calls' := calls ++ ["execute_code", "is_task_completed"]
      if isCompleted i then (steps', .completed, calls', some g)
      else loopAux gen execOut isCompleted rem (i + 1) steps' calls' (some g)

/-- The multi-step interaction loop
(`for interaction_step in range(1, self.max_interaction_steps + 1)`), with
the default status `MAX_STEPS_REACHED` when the loop exhausts all steps. -/
def interactionLoop (gen : Nat → Option GenOutput) (execOut : Nat → String)
    (isCompleted : Nat → Bool) (maxSteps : Nat) :
    List StepRec × ExecutionStatus × List String × Option GenOutput :=
  loopAux gen execOut isCompleted maxSteps 1 [] [] none

/-- The per-task outcome of `AppWorldAdapterBase._process_sample` relevant
to the specified properties: the finalized trajectory, the ordered log of
environment calls, the retained generator output, and the parsed unit-test
metrics. -/
structure SampleOutcome where
  trajectory : Trajectory
  envCalls : List String
  final_generator_output : Option GenOutput
  unit_tests_passed : Nat
  unit_tests_total : Nat
  tgc : ℚ
  deriving Repr, DecidableEq

/-- `AppWorldAdapterBase._process_sample`, abstracted over the injected
collaborators: initialize the task, run the interaction loop, set the
trajectory's `execution_status`, then unconditionally call `evaluate_task`
(whose report text is the oracle `report`), compute `tgc`, and close the
task. -/
def processSample (task : String) (gen : Nat → Option GenOutput)
    (execOut : Nat → String) (isCompleted : Nat → Bool) (maxSteps : Nat)
    (report : String) : SampleOutcome :=
  let r := interactionLoop gen execOut isCompleted maxSteps
  let steps := r.1
  let status := r.2.1
  let loopCalls := r.2.2.1
  let finalOut := r.2.2.2
  let parsed := parse_unit_test_results report
  { trajectory :=
      { task := task, steps := steps, execution_status := status.value },
    envCalls :=
      ["initialize_task"] ++ loopCalls ++ ["evaluate_task", "close_task"],
    final_generator_output := finalOut,
    unit_tests_passed := parsed.1,
    unit_tests_total := parsed.2,
    tgc := tgcOf parsed.1 parsed.2 }

/-- One training-sample iteration of `AppWorldOfflineAdapter.run` as far as
deduplication scheduling is concerned: extend the bullet-id buffer with the
ids added by this sample's curation, increment the counter, and — only when
a deduplicator is configured and `dedup_frequency > 0` divides the counter —
record a `Playbook.deduplicate` call and clear the buffer.  State:
`(train_sample_counter, bullet_ids_buffer, recorded dedup calls)`. -/
def offlineSampleStep (hasDedup : Bool) (freq : Nat)
    (newIds : Nat → List String)
    (st : Nat × List String × List (Nat × List String)) :
    Nat × List String × List (Nat × List String) :=
  let buffer' := st.2.1 ++ newIds (st.1 + 1)
  let counter' := st.1 + 1
  if hasDedup && freq > 0 && counter' % freq == 0 then
    (counter', [], st.2.2 ++ [(counter', buffer')])
  else
    (counter', buffer', st.2.2)

/-- The deduplication schedule of `AppWorldOfflineAdapter.run`: the nested
epoch/sample loops thread the sample counter and buffer through
`offlineSampleStep`, and after all epochs any non-empty remaining buffer is
flushed once more.  Returns the `Playbook.deduplicate` calls made during
training (as `(sample counter, buffer)` pairs) and the final flush, if
any. -/
def offlineRunDedup (hasDedup : Bool) (freq epochs perEpoch : Nat)
    (newIds : Nat → List String) :
    List (Nat × List String) × Option (List String) :=
  let epochStep := fun (st : Nat × List String × List (Nat × List String))
    (_ : Nat) =>
    (List.range perEpoch).foldl
      (fun st _ => offlineSampleStep hasDedup freq newIds st) st
  let final := (List.range epochs).foldl epochStep (0, [], [])
  (final.2.2,
    if hasDedup && !final.2.1.isEmpty then some final.2.1 else none)

/-- C1, counterexample.  The claim says a fatal Generator failure (the
Generator returning no output after exhausting retries) stops the per-task
flow early with no `evaluate_task` call.  On the code, when the Generator
returns `None` at the first interaction step the loop does break with
status CRASHED, but `_process_sample` then still calls
`environment.evaluate_task` exactly once in its post-loop phase. -/
theorem generator_fatal_failure_still_evaluates :
    (processSample "t" (fun _ => none) (fun _ => "") (fun _ => false) 5
        "").trajectory.execution_status = "crashed" ∧
    (processSample "t" (fun _ => none) (fun _ => "") (fun _ => false) 5
        "").envCalls.count "evaluate_task" = 1 := by
  exact ⟨rfl, rfl⟩

/-- C2, counterexample.  The claim says `apply_delta` raises no exception
and silently skips a malformed operation.  On the code, an ADD operation
with an empty `section` and no usable `tip_id` reaches
`_generate_id("")`, where `"".split()[0]` raises an uncaught `IndexError`
(modeled as `none`), so `apply_delta` does raise. -/
theorem apply_delta_raises_on_empty_section_add :
    Playbook.empty.apply_delta
      (DeltaBatch.mk "r" [DeltaOperation.mk "ADD" "" (some "c") none []])
      "" = none := by
  rfl

/-- C3, code bug at the failing input.  `_generate_id` is documented to
"Generate a unique ID for a new tip" but never checks the generated id
against existing ids: after `add_tip("api alpha", "c1", tip_id="api-00001")`
a second `add_tip("api beta", "c2")` generates the already-taken id
`api-00001`, silently replaces the first tip in the tip map, and leaves
`api-00001` in two section lists at once — both uniqueness invariants of
the claim fail. -/
theorem generated_id_collision_breaks_uniqueness :
    (Playbook.empty.add_tip "api alpha" "c1" (some "api-00001") [] "").bind
      (fun p => p.add_tip "api beta" "c2" none [] "") =
    some
      (Playbook.mk
        [("api-00001", Tip.mk "api-00001" "api beta" "c2" [] "" "")]
        [("api alpha", ["api-00001"]), ("api beta", ["api-00001"])] 1) := by
  rfl

/-- C4, code bug at the failing input.  `AppWorldOfflineAdapter.__init__`
documents `dedup_frequency: ... 0 = once per epoch (default)`, but
`run` only deduplicates when `dedup_frequency > 0`: with a deduplicator
configured, `dedup_frequency = 0`, 2 epochs and 1 sample per epoch (each
curation adding one tip id), no `Playbook.deduplicate` call happens during
training and the whole buffer is flushed once at the end; with
`dedup_frequency = 2` over 5 samples the code does flush every 2 samples
plus a final remainder flush, as claimed. -/
theorem offline_dedup_freq_zero_skips_per_epoch_flush :
    offlineRunDedup true 0 2 1 (fun i => ["id" ++ toString i]) =
      ([], some ["id1", "id2"]) ∧
    offlineRunDedup true 2 1 5 (fun i => ["id" ++ toString i]) =
      ([(2, ["id1", "id2"]), (4, ["id3", "id4"])], some ["id5"]) := by
  exact ⟨rfl, rfl⟩

lemma dictGet_dictSet_self {β : Type} (d : List (String × β)) (k : String)
    (v : β) : dictGet (dictSet d k v) k = some v := by
  induction d with
  | nil => simp [dictSet, dictGet]
  | cons hd tl ih =>
    obtain ⟨k', v'⟩ := hd
    by_cases hk : k' = k
    · simp [dictSet, dictGet, hk]
    · simp [dictSet, dictGet, hk, ih]

lemma dictGet_dictSet_ne {β : Type} (d : List (String × β)) (k k' : String)
    (v : β) (hne : k' ≠ k) : dictGet (dictSet d k v) k' = dictGet d k' := by
  induction d with
  | nil => simp [dictSet, dictGet, Ne.symm hne]
  | cons hd tl ih =>
    obtain ⟨a, b⟩ := hd
    by_cases hk : a = k
    · subst hk
      simp [dictSet, dictGet, Ne.symm hne]
    · by_cases hk' : a = k'
      · subst hk'
        simp [dictSet, dictGet, hk]
      · simp [dictSet, dictGet, hk, hk', ih]

lemma dictGet_isSome_of_mem {β : Type} {d : List (String × β)}
    {kv : String × β} (h : kv ∈ d) : (dictGet d kv.1).isSome := by
  induction d with
  | nil => simp at h
  | cons hd tl ih =>
    obtain ⟨a, b⟩ := hd
    by_cases hk : a = kv.1
    · simp [dictGet, hk]
    · rw [List.mem_cons] at h
      rcases h with h | h
      · exact absurd (congrArg Prod.fst h).symm hk
      · simpa [dictGet, hk] using ih h

lemma dictGet_eraseKey_ne {β : Type} (d : List (String × β)) (k k' : String)
    (hne : k' ≠ k) : dictGet (eraseKey d k) k' = dictGet d k' := by
  induction d with
  | nil => rfl
  | cons hd tl ih =>
    obtain ⟨a, b⟩ := hd
    by_cases hk : a = k
    · subst hk
      simp [eraseKey, dictGet, Ne.symm hne, ih]
    · by_cases hk' : a = k'
      · subst hk'
        simp [eraseKey, dictGet, hk]
      · simp [eraseKey, dictGet, hk, hk', ih]

/-- `remove_tip` either leaves the playbook untouched (unknown id) or
erases exactly the key `tip_id` from the tip map, and in every case leaves
the id-generation counter unchanged. -/
lemma remove_tip_cases (p : Playbook) (tip_id : String) :
    ((p.remove_tip tip_id).tips = p.tips ∨
      (p.remove_tip tip_id).tips = eraseKey p.tips tip_id) ∧
    (p.remove_tip tip_id).next_id = p.next_id := by
  cases h : dictGet p.tips tip_id with
  | none => simp [Playbook.remove_tip, h]
  | some tip =>
    cases hs : dictGet p.sections tip.sectionName with
    | none => simp [Playbook.remove_tip, h, hs]
    | some ids =>
      by_cases hids : ids.isEmpty
      · simp [Playbook.remove_tip, h, hs, hids]
      · simp [Playbook.remove_tip, h, hs, hids]
        split <;> simp

/-- `remove_tip` never touches the id-generation counter (ids are never
reused after deletions). -/
lemma remove_tip_next_id (p : Playbook) (tip_id : String) :
    (p.remove_tip tip_id).next_id = p.next_id :=
  (remove_tip_cases p tip_id).2

lemma remove_tip_frame (p : Playbook) (tip_id id : String)
    (hne : id ≠ tip_id) :
    dictGet (p.remove_tip tip_id).tips id = dictGet p.tips id := by
  rcases (remove_tip_cases p tip_id).1 with h | h
  · rw [h]
  · rw [h]; exact dictGet_eraseKey_ne _ _ _ hne

/-- C8.  When `add_tip` must generate an id (the `tip_id` argument is
absent or already taken) and the section has a first word `w`, the stored
tip receives the id `"{w.lower()}-{next_id+1:05d}"`, the shared counter
strictly increases by one, deletions never decrease the counter, and on an
empty playbook `add_tip("API Usage", "Use pagination loops")` yields the id
`"api-00001"`. -/
theorem add_tip_generated_id_format :
    (∀ (p : Playbook) (s c : String) (tid : Option String)
        (tags : List String) (now w : String),
      firstWord s = some w →
      (tid = none ∨ ∃ t, tid = some t ∧ (dictGet p.tips t).isSome) →
      ∃ p', p.add_tip s c tid tags now = some p' ∧
        p'.next_id = p.next_id + 1 ∧
        dictGet p'.tips (strLower w ++ "-" ++ pad5 (p.next_id + 1)) =
          some (Tip.mk (strLower w ++ "-" ++ pad5 (p.next_id + 1)) s c tags
            now now)) ∧
    (∀ (p : Playbook) (tid : String),
      (p.remove_tip tid).next_id = p.next_id) ∧
    Playbook.empty.add_tip "API Usage" "Use pagination loops" none [] "" =
      some
        (Playbook.mk
          [("api-00001",
            Tip.mk "api-00001" "API Usage" "Use pagination loops" [] "" "")]
          [("API Usage", ["api-00001"])] 1) := by
  refine ⟨?_, remove_tip_next_id, by rfl⟩
  intro p s c tid tags now w hw htid
  have hgen : p.generate_id s =
      some (strLower w ++ "-" ++ pad5 (p.next_id + 1),
        { p with next_id := p.next_id + 1 }) := by
    unfold Playbook.generate_id
    rw [hw]
  have hadd : p.add_tip s c tid tags now =
      some (Playbook.mk
        (dictSet p.tips (strLower w ++ "-" ++ pad5 (p.next_id + 1))
          (Tip.mk (strLower w ++ "-" ++ pad5 (p.next_id + 1)) s c tags now
            now))
        (setdefaultAppend p.sections s
          (strLower w ++ "-" ++ pad5 (p.next_id + 1)))
        (p.next_id + 1)) := by
    rcases htid with h | ⟨t, ht, htaken⟩
    · subst h; simp [Playbook.add_tip, hgen]
    · subst ht; simp [Playbook.add_tip, htaken, hgen]
  exact ⟨_, hadd, rfl, dictGet_dictSet_self _ _ _⟩

/-- C8, witness: the general statement instantiated on the empty playbook
and section `"API Usage"`. -/
theorem add_tip_generated_id_format_witness :
    ∃ p', Playbook.empty.add_tip "API Usage" "Use pagination loops" none []
        "" = some p' ∧
      p'.next_id = Playbook.empty.next_id + 1 ∧
      dictGet p'.tips
          (strLower "API" ++ "-" ++ pad5 (Playbook.empty.next_id + 1)) =
        some (Tip.mk
          (strLower "API" ++ "-" ++ pad5 (Playbook.empty.next_id + 1))
          "API Usage" "Use pagination loops" [] "" "") :=
  add_tip_generated_id_format.1 Playbook.empty "API Usage"
    "Use pagination loops" none [] "" "API" (by rfl) (Or.inl rfl)

/-- C9.  The unit-test report parser extracts `passed`/`total` from the
`Num Passed Tests : n` / `Num Total  Tests : n` lines, defaults each
missing field to 0, yields `(0, 0)` on an empty or line-free report, and
the adapter sets `tgc = 1.0` iff `passed == total` — so a report with
neither line yields `tgc = 1.0`. -/
theorem unit_test_report_parsing_and_tgc :
    parse_unit_test_results "" = (0, 0) ∧
    parse_unit_test_results "Num Passed Tests : 2\nNum Total  Tests : 2" =
      (2, 2) ∧
    parse_unit_test_results "Num Passed Tests : 1\nNum Total  Tests : 2" =
      (1, 2) ∧
    parse_unit_test_results "Num Passed Tests : 3" = (3, 0) ∧
    parse_unit_test_results "no tests were run" = (0, 0) ∧
    tgcOf 0 0 = 1 ∧ tgcOf 1 2 = 0 ∧
    (∀ passed total : Nat, tgcOf passed total = 1 ↔ passed = total) ∧
    (∀ (task report : String) (gen : Nat → Option GenOutput)
        (eo : Nat → String) (co : Nat → Bool) (maxSteps : Nat),
      (processSample task gen eo co maxSteps report).tgc = 1 ↔
        (parse_unit_test_results report).1 =
          (parse_unit_test_results report).2) := by
  refine ⟨rfl, rfl, rfl, rfl, rfl, rfl, rfl, ?_, ?_⟩
  · intro passed total
    by_cases h : passed = total <;> simp [tgcOf, h]
  · intro task report gen eo co maxSteps
    show tgcOf _ _ = 1 ↔ _
    by_cases h : (parse_unit_test_results report).1 =
        (parse_unit_test_results report).2 <;> simp [tgcOf, h]

/-- The trajectory and status of `processSample` are exactly those of the
interaction loop (the post-loop phase only finalizes the status string). -/
lemma processSample_loop (task report : String) (gen : Nat → Option GenOutput)
    (eo : Nat → String) (co : Nat → Bool) (maxSteps : Nat) :
    (processSample task gen eo co maxSteps report).trajectory.steps =
      (interactionLoop gen eo co maxSteps).1 ∧
    (processSample task gen eo co maxSteps report).trajectory.execution_status
      = (interactionLoop gen eo co maxSteps).2.1.value :=
  ⟨rfl, rfl⟩

/-- If the Generator always produces output, is-completed is false before
check `i + d` and true at it, and the loop has more than `d` steps of fuel
left, it stops right after appending the `(d+1)`-th step with status
COMPLETED. -/
lemma loopAux_completed (gen : Nat → Option GenOutput) (eo : Nat → String)
    (co : Nat → Bool) (hgen : ∀ j, (gen j).isSome) :
    ∀ (rem d i : Nat) (steps : List StepRec) (calls : List String)
      (fo : Option GenOutput),
      d < rem → (∀ j, i ≤ j → j < i + d → co j = false) →
      co (i + d) = true →
      (loopAux gen eo co rem i steps calls fo).1.length =
        steps.length + d + 1 ∧
      (loopAux gen eo co rem i steps calls fo).2.1 = .completed := by
  intro rem
  induction rem with
  | zero => intro d i steps calls fo hd; exact absurd hd (Nat.not_lt_zero d)
  | succ rem ih =>
    intro d i steps calls fo hd hbefore hk
    obtain ⟨g, hg⟩ := Option.isSome_iff_exists.mp (hgen i)
    cases d with
    | zero =>
      have hco : co i = true := by simpa using hk
      simp [loopAux, hg, hco]
    | succ e =>
      have hco : co i = false := hbefore i le_rfl (by omega)
      have hk' : co (i + 1 + e) = true := by
        rw [show i + 1 + e = i + (e + 1) by omega]; exact hk
      have h1 := ih e (i + 1)
        (steps ++ [StepRec.mk g.reasoning g.bullet_ids g.final_answer
          ("Output: " ++ eo i ++ "\n")])
        (calls ++ ["execute_code", "is_task_completed"]) (some g)
        (by omega) (fun j hj1 hj2 => hbefore j (by omega) (by omega)) hk'
      obtain ⟨hlen, hstat⟩ := h1
      simp only [List.length_append, List.length_singleton] at hlen
      refine ⟨?_, ?_⟩
      · simp only [loopAux, hg, hco]
        simp only [Bool.false_eq_true, if_false]
        omega
      · simp only [loopAux, hg, hco]
        simp only [Bool.false_eq_true, if_false]
        exact hstat

/-- If the Generator always produces output and is-completed stays false
for the remaining fuel, the loop runs out of steps with the default status
MAX_STEPS_REACHED. -/
lemma loopAux_max_steps (gen : Nat → Option GenOutput) (eo : Nat → String)
    (co : Nat → Bool) (hgen : ∀ j, (gen j).isSome) :
    ∀ (rem i : Nat) (steps : List StepRec) (calls : List String)
      (fo : Option GenOutput),
      (∀ j, i ≤ j → j < i + rem → co j = false) →
      (loopAux gen eo co rem i steps calls fo).1.length =
        steps.length + rem ∧
      (loopAux gen eo co rem i steps calls fo).2.1 = .max_steps_reached := by
  intro rem
  induction rem with
  | zero => intro i steps calls fo h; simp [loopAux]
  | succ rem ih =>
    intro i steps calls fo h
    obtain ⟨g, hg⟩ := Option.isSome_iff_exists.mp (hgen i)
    have hco : co i = false := h i le_rfl (by omega)
    have h1 := ih (i + 1)
      (steps ++ [StepRec.mk g.reasoning g.bullet_ids g.final_answer
        ("Output: " ++ eo i ++ "\n")])
      (calls ++ ["execute_code", "is_task_completed"]) (some g)
      (fun j hj1 hj2 => h j (by omega) (by omega))
    obtain ⟨hlen, hstat⟩ := h1
    simp only [List.length_append, List.length_singleton] at hlen
    refine ⟨?_, ?_⟩
    · simp only [loopAux, hg, hco]
      simp only [Bool.false_eq_true, if_false]
      omega
    · simp only [loopAux, hg, hco]
      simp only [Bool.false_eq_true, if_false]
      exact hstat

/-- If the Generator produces output (and the check fails) on the steps
before `i + d` and returns `None` at step `i + d`, the loop stops with
status CRASHED right there, having recorded only the `d` previous steps. -/
lemma loopAux_crashed (gen : Nat → Option GenOutput) (eo : Nat → String)
    (co : Nat → Bool) :
    ∀ (rem d i : Nat) (steps : List StepRec) (calls : List String)
      (fo : Option GenOutput),
      d < rem →
      (∀ j, i ≤ j → j < i + d → (gen j).isSome ∧ co j = false) →
      gen (i + d) = none →
      (loopAux gen eo co rem i steps calls fo).1.length = steps.length + d ∧
      (loopAux gen eo co rem i steps calls fo).2.1 = .crashed := by
  intro rem
  induction rem with
  | zero => intro d i steps calls fo hd; exact absurd hd (Nat.not_lt_zero d)
  | succ rem ih =>
    intro d i steps calls fo hd hbefore hnone
    cases d with
    | zero =>
      have hg : gen i = none := by simpa using hnone
      simp [loopAux, hg]
    | succ e =>
      obtain ⟨hsome, hco⟩ := hbefore i le_rfl (by omega)
      obtain ⟨g, hg⟩ := Option.isSome_iff_exists.mp hsome
      have hnone' : gen (i + 1 + e) = none := by
        rw [show i + 1 + e = i + (e + 1) by omega]; exact hnone
      have h1 := ih e (i + 1)
        (steps ++ [StepRec.mk g.reasoning g.bullet_ids g.final_answer
          ("Output: " ++ eo i ++ "\n")])
        (calls ++ ["execute_code", "is_task_completed"]) (some g)
        (by omega) (fun j hj1 hj2 => hbefore j (by omega) (by omega)) hnone'
      obtain ⟨hlen, hstat⟩ := h1
      simp only [List.length_append, List.length_singleton] at hlen
      refine ⟨?_, ?_⟩
      · simp only [loopAux, hg, hco]
        simp only [Bool.false_eq_true, if_false]
        omega
      · simp only [loopAux, hg, hco]
        simp only [Bool.false_eq_true, if_false]
        exact hstat

/-- The interaction loop logs only `execute_code` / `is_task_completed`
environment calls. -/
lemma loopAux_count_evaluate (gen : Nat → Option GenOutput)
    (eo : Nat → String) (co : Nat → Bool) :
    ∀ (rem i : Nat) (steps : List StepRec) (calls : List String)
      (fo : Option GenOutput),
      ((loopAux gen eo co rem i steps calls fo).2.2.1).count "evaluate_task"
        = calls.count "evaluate_task" := by
  intro rem
  induction rem with
  | zero => intro i steps calls fo; simp [loopAux]
  | succ rem ih =>
    intro i steps calls fo
    cases hg : gen i with
    | none => simp [loopAux, hg]
    | some g =>
      by_cases hco : co i
      · simp [loopAux, hg, hco, List.count_append]
      · simp only [loopAux, hg]
        simp only [hco, Bool.false_eq_true, if_false]
        rw [ih]
        simp [List.count_append]

/-- `_process_sample` calls `evaluate_task` exactly once on every path —
the post-loop evaluation is unconditional. -/
lemma processSample_evaluate_once (task report : String)
    (gen : Nat → Option GenOutput) (eo : Nat → String) (co : Nat → Bool)
    (maxSteps : Nat) :
    (processSample task gen eo co maxSteps report).envCalls.count
      "evaluate_task" = 1 := by
  show (["initialize_task"] ++ (interactionLoop gen eo co maxSteps).2.2.1 ++
    ["evaluate_task", "close_task"]).count "evaluate_task" = 1
  rw [List.count_append, List.count_append]
  rw [interactionLoop, loopAux_count_evaluate]
  simp

/-- C5.  With a never-failing Generator: if `is_task_completed` first
returns true at the `k`-th check (`k ≤ max_interaction_steps`), the
trajectory records exactly `k` steps and the execution status is
`"completed"`; if it never returns true, the trajectory records exactly
`max_interaction_steps` steps and the status is `"max_steps_reached"`. -/
theorem interaction_loop_step_count_and_status :
    (∀ (task report : String) (gen : Nat → Option GenOutput)
        (eo : Nat → String) (co : Nat → Bool) (maxSteps k : Nat),
      (∀ j, (gen j).isSome) →
      1 ≤ k → k ≤ maxSteps →
      (∀ j, 1 ≤ j → j < k → co j = false) → co k = true →
      (processSample task gen eo co maxSteps
          report).trajectory.steps.length = k ∧
      (processSample task gen eo co maxSteps
          report).trajectory.execution_status = "completed") ∧
    (∀ (task report : String) (gen : Nat → Option GenOutput)
        (eo : Nat → String) (co : Nat → Bool) (maxSteps : Nat),
      (∀ j, (gen j).isSome) →
      (∀ j, 1 ≤ j → j ≤ maxSteps → co j = false) →
      (processSample task gen eo co maxSteps
          report).trajectory.steps.length = maxSteps ∧
      (processSample task gen eo co maxSteps
          report).trajectory.execution_status = "max_steps_reached") := by
  constructor
  · intro task report gen eo co maxSteps k hgen hk1 hkmax hbefore hk
    have hck : co (1 + (k - 1)) = true := by
      rw [show 1 + (k - 1) = k by omega]; exact hk
    have h := loopAux_completed gen eo co hgen maxSteps (k - 1) 1 [] [] none
      (by omega) (fun j hj1 hj2 => hbefore j hj1 (by omega)) hck
    rw [(processSample_loop task report gen eo co maxSteps).1,
      (processSample_loop task report gen eo co maxSteps).2]
    rw [interactionLoop]
    exact ⟨by rw [h.1]; simp only [List.length_nil]; omega,
      by rw [h.2]; rfl⟩
  · intro task report gen eo co maxSteps hgen hnever
    have h := loopAux_max_steps gen eo co hgen maxSteps 1 [] [] none
      (fun j hj1 hj2 => hnever j hj1 (by omega))
    rw [(processSample_loop task report gen eo co maxSteps).1,
      (processSample_loop task report gen eo co maxSteps).2]
    rw [interactionLoop]
    exact ⟨by rw [h.1]; simp only [List.length_nil, Nat.zero_add],
      by rw [h.2]; rfl⟩

/-- C5, witness: completion first reported at the 3rd check with
`max_interaction_steps = 5` gives 3 steps and `"completed"`; never
completing gives 5 steps and `"max_steps_reached"`. -/
theorem interaction_loop_step_count_and_status_witness :
    ((processSample "t" (fun _ => some (GenOutput.mk "r" [] "c"))
        (fun _ => "o") (fun i => decide (3 ≤ i)) 5
        "").trajectory.steps.length = 3 ∧
      (processSample "t" (fun _ => some (GenOutput.mk "r" [] "c"))
        (fun _ => "o") (fun i => decide (3 ≤ i)) 5
        "").trajectory.execution_status = "completed") ∧
    ((processSample "t" (fun _ => some (GenOutput.mk "r" [] "c"))
        (fun _ => "o") (fun _ => false) 5
        "").trajectory.steps.length = 5 ∧
      (processSample "t" (fun _ => some (GenOutput.mk "r" [] "c"))
        (fun _ => "o") (fun _ => false) 5
        "").trajectory.execution_status = "max_steps_reached") :=
  ⟨interaction_loop_step_count_and_status.1 "t" ""
      (fun _ => some (GenOutput.mk "r" [] "c")) (fun _ => "o")
      (fun i => decide (3 ≤ i)) 5 3 (fun _ => rfl) (by decide) (by decide)
      (fun j hj1 hj2 => decide_eq_false (by omega)) (by decide),
    interaction_loop_step_count_and_status.2 "t" ""
      (fun _ => some (GenOutput.mk "r" [] "c")) (fun _ => "o")
      (fun _ => false) 5 (fun _ => rfl) (fun j hj1 hj2 => rfl)⟩

/-- C1, amended.  When the Generator first returns no output (after
exhausting retries) at interaction step `k`, the loop stops right there:
the status becomes CRASHED and only the `k - 1` previous steps are
recorded — but the per-task flow then proceeds to the post-loop
evaluation, calling `evaluate_task` exactly once, rather than skipping
it. -/
theorem generator_fatal_failure_crashes_loop_and_evaluation_runs :
    ∀ (task report : String) (gen : Nat → Option GenOutput)
      (eo : Nat → String) (co : Nat → Bool) (maxSteps k : Nat),
      1 ≤ k → k ≤ maxSteps →
      (∀ j, 1 ≤ j → j < k → (gen j).isSome ∧ co j = false) →
      gen k = none →
      (processSample task gen eo co maxSteps
          report).trajectory.execution_status = "crashed" ∧
      (processSample task gen eo co maxSteps
          report).trajectory.steps.length = k - 1 ∧
      (processSample task gen eo co maxSteps report).envCalls.count
        "evaluate_task" = 1 := by
  intro task report gen eo co maxSteps k hk1 hkmax hbefore hnone
  have hnone' : gen (1 + (k - 1)) = none := by
    rw [show 1 + (k - 1) = k by omega]; exact hnone
  have h := loopAux_crashed gen eo co maxSteps (k - 1) 1 [] [] none
    (by omega) (fun j hj1 hj2 => hbefore j hj1 (by omega)) hnone'
  refine ⟨?_, ?_, processSample_evaluate_once task report gen eo co maxSteps⟩
  · rw [(processSample_loop task report gen eo co maxSteps).2,
      interactionLoop, h.2]
    rfl
  · rw [(processSample_loop task report gen eo co maxSteps).1,
      interactionLoop, h.1]
    simp only [List.length_nil, Nat.zero_add]

/-- C1 (amended), witness: the Generator fails at step 2 of 5 after one
successful non-completing step. -/
theorem generator_fatal_failure_crashes_loop_and_evaluation_runs_witness :
    (processSample "t" (fun i => if i < 2 then some (GenOutput.mk "r" [] "c")
        else none) (fun _ => "o") (fun _ => false) 5
        "").trajectory.execution_status = "crashed" ∧
    (processSample "t" (fun i => if i < 2 then some (GenOutput.mk "r" [] "c")
        else none) (fun _ => "o") (fun _ => false) 5
        "").trajectory.steps.length = 2 - 1 ∧
    (processSample "t" (fun i => if i < 2 then some (GenOutput.mk "r" [] "c")
        else none) (fun _ => "o") (fun _ => false) 5
        "").envCalls.count "evaluate_task" = 1 :=
  generator_fatal_failure_crashes_loop_and_evaluation_runs "t" ""
    (fun i => if i < 2 then some (GenOutput.mk "r" [] "c") else none)
    (fun _ => "o") (fun _ => false) 5 2 (by decide) (by decide)
    (fun j hj1 hj2 => ⟨by simp [show j < 2 from hj2], rfl⟩)
    (by simp)

lemma dictGet_isSome_of_mem_keys {β : Type} :
    ∀ (d : List (String × β)) (k : String), k ∈ d.map Prod.fst →
      (dictGet d k).isSome := by
  intro d
  induction d with
  | nil => intro k h; simp at h
  | cons hd tl ih =>
    obtain ⟨a, b⟩ := hd
    intro k h
    by_cases hk : a = k
    · simp [dictGet, hk]
    · rcases List.mem_cons.mp h with h | h
      · exact absurd h.symm hk
      · simpa [dictGet, hk] using ih k h

/-- Every id with a binding in the "new tips" dict built by
`Playbook.deduplicate` comes from the accumulator or from `tip_ids`. -/
lemma dedup_new_tips_sound (p : Playbook) :
    ∀ (tip_ids : List String) (acc : List (String × String)) (id : String),
      (dictGet (tip_ids.foldl
        (fun acc tid =>
          match dictGet p.tips tid with
          | some tip => dictSet acc tid tip.content
          | none => acc) acc) id).isSome →
      (dictGet acc id).isSome ∨ id ∈ tip_ids := by
  intro tip_ids
  induction tip_ids with
  | nil => intro acc id h; exact Or.inl h
  | cons t ts ih =>
    intro acc id h
    rw [List.foldl_cons] at h
    rcases ih _ id h with hacc | hmem
    · cases hp : dictGet p.tips t with
      | none => rw [hp] at hacc; exact Or.inl hacc
      | some tip =>
        rw [hp] at hacc
        by_cases hid : id = t
        · exact Or.inr (hid ▸ List.mem_cons_self t ts)
        · rw [dictGet_dictSet_ne _ _ _ _ hid] at hacc
          exact Or.inl hacc
    · exact Or.inr (List.mem_cons_of_mem t hmem)

/-- A binding in the "new tips" dict survives processing more ids. -/
lemma dedup_new_tips_preserve (p : Playbook) :
    ∀ (l : List String) (acc : List (String × String)) (id : String),
      (dictGet acc id).isSome →
      (dictGet (l.foldl
        (fun acc tid =>
          match dictGet p.tips tid with
          | some tip => dictSet acc tid tip.content
          | none => acc) acc) id).isSome := by
  intro l
  induction l with
  | nil => intro acc id h; exact h
  | cons t ts ih =>
    intro acc id h
    rw [List.foldl_cons]
    refine ih _ id ?_
    cases hp : dictGet p.tips t with
    | none => exact h
    | some tip =>
      by_cases hid : id = t
      · subst hid; rw [dictGet_dictSet_self]; rfl
      · rw [dictGet_dictSet_ne _ _ _ _ hid]; exact h

/-- Each id of `tip_ids` that exists in the playbook gets a binding in the
"new tips" dict built by `Playbook.deduplicate`. -/
lemma dedup_new_tips_complete (p : Playbook) :
    ∀ (tip_ids : List String) (acc : List (String × String)) (id : String),
      id ∈ tip_ids → (dictGet p.tips id).isSome →
      (dictGet (tip_ids.foldl
        (fun acc tid =>
          match dictGet p.tips tid with
          | some tip => dictSet acc tid tip.content
          | none => acc) acc) id).isSome := by
  intro tip_ids
  induction tip_ids with
  | nil => intro acc id h; simp at h
  | cons t ts ih =>
    intro acc id hmem hsome
    rw [List.foldl_cons]
    by_cases hid : id = t
    · subst hid
      obtain ⟨tip, hp⟩ := Option.isSome_iff_exists.mp hsome
      rw [hp]
      exact dedup_new_tips_preserve p ts _ id
        (by rw [dictGet_dictSet_self]; rfl)
    · exact ih _ id (List.mem_of_ne_of_mem hid hmem) hsome

/-- Removing a list of other ids does not change the binding of `id`. -/
lemma foldl_remove_frame :
    ∀ (ids : List String) (p : Playbook) (id : String),
      (∀ t ∈ ids, t ≠ id) →
      dictGet ((ids.foldl (fun q tid => q.remove_tip tid) p)).tips id =
        dictGet p.tips id := by
  intro ids
  induction ids with
  | nil => intro p id _; rfl
  | cons t ts ih =>
    intro p id h
    rw [List.foldl_cons, ih _ id (fun u hu => h u (List.mem_cons_of_mem t hu))]
    exact remove_tip_frame p t id
      (fun hc => h t (List.mem_cons_self t ts) hc.symm)

/-- C6.  `find_duplicates` returns only ids drawn from its `new_bullets`
argument (for any content matcher, covering both the embedding and the
fallback strategies), and consequently `Playbook.deduplicate` leaves every
tip whose id is not in the given `tip_ids` untouched — existing knowledge
is never deleted by deduplication. -/
theorem deduplication_only_removes_given_new_ids :
    (∀ (matcher : String → String → Bool)
        (new_bullets existing_bullets : List (String × String))
        (id : String),
      id ∈ find_duplicates matcher new_bullets existing_bullets →
      id ∈ new_bullets.map Prod.fst) ∧
    (∀ (p : Playbook) (matcher : String → String → Bool)
        (tip_ids : List String) (id : String),
      id ∉ tip_ids →
      dictGet (p.deduplicate (find_duplicates matcher) tip_ids).2.tips id =
        dictGet p.tips id) := by
  have hsub : ∀ (matcher : String → String → Bool)
      (new_bullets existing_bullets : List (String × String)) (id : String),
      id ∈ find_duplicates matcher new_bullets existing_bullets →
      id ∈ new_bullets.map Prod.fst := by
    intro matcher new_bullets existing_bullets id h
    unfold find_duplicates at h
    by_cases hempty : new_bullets.isEmpty || existing_bullets.isEmpty
    · rw [if_pos hempty] at h; simp at h
    · rw [if_neg hempty] at h
      rcases List.mem_map.mp h with ⟨kv, hkv, hfst⟩
      exact hfst ▸ List.mem_map_of_mem Prod.fst (List.mem_of_mem_filter hkv)
  refine ⟨hsub, ?_⟩
  intro p matcher tip_ids id hid
  simp only [Playbook.deduplicate]
  refine foldl_remove_frame _ p id ?_
  intro t ht hc
  subst hc
  have h1 := hsub matcher _ _ t ht
  have h2 := dictGet_isSome_of_mem_keys _ t h1
  rcases dedup_new_tips_sound p tip_ids [] t h2 with h3 | h3
  · simp [dictGet] at h3
  · exact hid h3

/-- C6, witness: a matcher that flags everything still cannot remove the
existing tip `"keep"`, which is outside the given id list. -/
theorem deduplication_only_removes_given_new_ids_witness :
    ("new1" ∈ find_duplicates (fun _ _ => true) [("new1", "c")]
        [("keep", "d")] →
      "new1" ∈ [("new1", "c")].map Prod.fst) ∧
    dictGet
        ((Playbook.mk
          [("new1", Tip.mk "new1" "s" "c" [] "" ""),
            ("keep", Tip.mk "keep" "s" "d" [] "" "")]
          [("s", ["new1", "keep"])] 2).deduplicate
          (find_duplicates (fun _ _ => true)) ["new1"]).2.tips "keep" =
      dictGet
        (Playbook.mk
          [("new1", Tip.mk "new1" "s" "c" [] "" ""),
            ("keep", Tip.mk "keep" "s" "d" [] "" "")]
          [("s", ["new1", "keep"])] 2).tips "keep" :=
  ⟨deduplication_only_removes_given_new_ids.1 (fun _ _ => true)
      [("new1", "c")] [("keep", "d")] "new1",
    deduplication_only_removes_given_new_ids.2
      (Playbook.mk
        [("new1", Tip.mk "new1" "s" "c" [] "" ""),
          ("keep", Tip.mk "keep" "s" "d" [] "" "")]
        [("s", ["new1", "keep"])] 2)
      (fun _ _ => true) ["new1"] "keep" (by decide)⟩

/-- C10.  `find_duplicates` returns `[]` whenever either input dict is
empty, and never compares new tips among themselves (no matches against
existing tips means nothing is flagged); consequently `deduplicate`
removes nothing when the given `tip_ids` cover all tips of the playbook
(existing side empty) or none of them (new side empty). -/
theorem find_duplicates_empty_and_new_only :
    (∀ (matcher : String → String → Bool)
        (new_bullets existing_bullets : List (String × String)),
      new_bullets = [] ∨ existing_bullets = [] →
      find_duplicates matcher new_bullets existing_bullets = []) ∧
    (∀ (matcher : String → String → Bool)
        (new_bullets existing_bullets : List (String × String)),
      (∀ nb ∈ new_bullets, ∀ eb ∈ existing_bullets,
        matcher nb.2 eb.2 = false) →
      find_duplicates matcher new_bullets existing_bullets = []) ∧
    (∀ (p : Playbook) (matcher : String → String → Bool)
        (tip_ids : List String),
      (∀ kv ∈ p.tips, kv.1 ∈ tip_ids) →
      p.deduplicate (find_duplicates matcher) tip_ids = ([], p)) ∧
    (∀ (p : Playbook) (matcher : String → String → Bool)
        (tip_ids : List String),
      (∀ tid ∈ tip_ids, dictGet p.tips tid = none) →
      p.deduplicate (find_duplicates matcher) tip_ids = ([], p)) := by
  refine ⟨?_, ?_, ?_, ?_⟩
  · intro matcher new_bullets existing_bullets h
    rcases h with h | h <;> simp [find_duplicates, h]
  · intro matcher new_bullets existing_bullets h
    unfold find_duplicates
    by_cases hempty : new_bullets.isEmpty || existing_bullets.isEmpty
    · rw [if_pos hempty]
    · rw [if_neg hempty]
      have : new_bullets.filter
          (fun nb => existing_bullets.any (fun eb => matcher nb.2 eb.2)) =
          [] := by
        rw [List.filter_eq_nil_iff]
        intro nb hnb hany
        rcases List.any_eq_true.mp hany with ⟨eb, heb, hm⟩
        rw [h nb hnb eb heb] at hm
        exact Bool.false_ne_true hm
      rw [this]
      rfl
  · intro p matcher tip_ids hcover
    simp only [Playbook.deduplicate]
    have hfilter : p.tips.filter
        (fun kv => (dictGet (tip_ids.foldl
          (fun acc tid =>
            match dictGet p.tips tid with
            | some tip => dictSet acc tid tip.content
            | none => acc) []) kv.1).isNone) = [] := by
      rw [List.filter_eq_nil_iff]
      intro kv hkv
      have hsome := dedup_new_tips_complete p tip_ids [] kv.1 (hcover kv hkv)
        (dictGet_isSome_of_mem hkv)
      intro hc
      rw [Option.isNone_iff_eq_none] at hc
      rw [hc] at hsome
      simp at hsome
    rw [hfilter]
    simp [find_duplicates]
  · intro p matcher tip_ids hnone
    simp only [Playbook.deduplicate]
    have hnew : tip_ids.foldl
        (fun acc tid =>
          match dictGet p.tips tid with
          | some tip => dictSet acc tid tip.content
          | none => acc) ([] : List (String × String)) = [] := by
      induction tip_ids with
      | nil => rfl
      | cons t ts ih =>
        rw [List.foldl_cons, hnone t (List.mem_cons_self t ts)]
        exact ih (fun u hu => hnone u (List.mem_cons_of_mem t hu))
    rw [hnew]
    simp [find_duplicates]

/-- C10, witness: the degenerate inputs instantiated concretely. -/
theorem find_duplicates_empty_and_new_only_witness :
    find_duplicates (fun _ _ => true) [] [("a", "c")] = [] ∧
    find_duplicates (fun _ _ => false) [("a", "c")] [("b", "c")] = [] ∧
    ((Playbook.mk [("a", Tip.mk "a" "s" "c" [] "" "")] [("s", ["a"])]
        1).deduplicate (find_duplicates (fun _ _ => true)) ["a"] =
      ([], Playbook.mk [("a", Tip.mk "a" "s" "c" [] "" "")] [("s", ["a"])]
        1)) ∧
    ((Playbook.mk [("a", Tip.mk "a" "s" "c" [] "" "")] [("s", ["a"])]
        1).deduplicate (find_duplicates (fun _ _ => true)) ["zzz"] =
      ([], Playbook.mk [("a", Tip.mk "a" "s" "c" [] "" "")] [("s", ["a"])]
        1)) :=
  ⟨find_duplicates_empty_and_new_only.1 (fun _ _ => true) [] [("a", "c")]
      (Or.inl rfl),
    find_duplicates_empty_and_new_only.2.1 (fun _ _ => false) [("a", "c")]
      [("b", "c")] (fun nb _ eb _ => rfl),
    find_duplicates_empty_and_new_only.2.2.1
      (Playbook.mk [("a", Tip.mk "a" "s" "c" [] "" "")] [("s", ["a"])] 1)
      (fun _ _ => true) ["a"] (by decide),
    find_duplicates_empty_and_new_only.2.2.2
      (Playbook.mk [("a", Tip.mk "a" "s" "c" [] "" "")] [("s", ["a"])] 1)
      (fun _ _ => true) ["zzz"] (by decide)⟩

lemma decodeStrList_map : ∀ l : List String,
    decodeStrList (l.map JsonValue.str) = some l := by
  intro l
  induction l with
  | nil => rfl
  | cons x xs ih => simp [decodeStrList, ih]

/-- `Tip(**asdict(tip))` reconstructs the tip exactly. -/
lemma from_kwargs_to_json (t : Tip) :
    Tip.from_kwargs [("id", JsonValue.str t.id),
      ("section", JsonValue.str t.sectionName),
      ("content", JsonValue.str t.content),
      ("scenario_tags", JsonValue.arr (t.scenario_tags.map JsonValue.str)),
      ("created_at", JsonValue.str t.created_at),
      ("updated_at", JsonValue.str t.updated_at)] = some t := by
  simp [Tip.from_kwargs, dictGet, decodeStrList_map]

lemma dictSet_append {β : Type} : ∀ (d : List (String × β)) (k : String)
    (v : β), k ∉ d.map Prod.fst → dictSet d k v = d ++ [(k, v)] := by
  intro d
  induction d with
  | nil => intro k v _; rfl
  | cons hd tl ih =>
    obtain ⟨a, b⟩ := hd
    intro k v h
    have ha : ¬a = k := fun hc => h (by simp [hc])
    have htl : k ∉ tl.map Prod.fst := fun hc => h (by simp [hc])
    simp [dictSet, ha, ih _ _ htl]

/-- Inserting key-distinct entries into a dict that contains none of them
reproduces them in order. -/
lemma foldl_dictSet_eq {β : Type} :
    ∀ (l acc : List (String × β)),
      (∀ k ∈ l.map Prod.fst, k ∉ acc.map Prod.fst) →
      (l.map Prod.fst).Nodup →
      l.foldl (fun d kv => dictSet d kv.1 kv.2) acc = acc ++ l := by
  intro l
  induction l with
  | nil => intro acc _ _; simp
  | cons hd tl ih =>
    obtain ⟨k, v⟩ := hd
    intro acc hdisj hnodup
    rw [List.foldl_cons]
    rw [dictSet_append acc k v (hdisj k (by simp))]
    rw [ih (acc ++ [(k, v)]) ?_ ?_]
    · simp
    · intro k' hk' hmem
      rw [List.map_append, List.mem_append] at hmem
      rcases hmem with hmem | hmem
      · exact hdisj k' (by simp [hk']) hmem
      · simp at hmem
        rw [List.map_cons, List.nodup_cons] at hnodup
        exact hnodup.1 (hmem ▸ hk')
    · rw [List.map_cons, List.nodup_cons] at hnodup
      exact hnodup.2

lemma tips_foldlM (l : List (String × Tip)) :
    ∀ acc : List (String × Tip),
      (l.map (fun kv => (kv.1, kv.2.to_json))).foldlM
        (fun acc kv =>
          match kv.2 with
          | .obj tfields => do
            let tip ← Tip.from_kwargs tfields
            pure (dictSet acc kv.1 tip)
          | _ => pure acc) acc =
      some (l.foldl (fun acc kv => dictSet acc kv.1 kv.2) acc) := by
  induction l with
  | nil => intro acc; rfl
  | cons kv rest ih =>
    obtain ⟨k, tv⟩ := kv
    intro acc
    rw [List.map_cons, List.foldlM_cons]
    simp [Tip.to_json, from_kwargs_to_json]
    exact ih _

lemma sections_foldlM (l : List (String × List String)) :
    ∀ acc : List (String × List String),
      (l.map (fun kv => (kv.1, JsonValue.arr (kv.2.map .str)))).foldlM
        (fun acc kv => do
          let ids ← jsonToIdList kv.2
          pure (dictSet acc kv.1 ids)) acc =
      some (l.foldl (fun acc kv => dictSet acc kv.1 kv.2) acc) := by
  induction l with
  | nil => intro acc; rfl
  | cons kv rest ih =>
    obtain ⟨k, ids⟩ := kv
    intro acc
    rw [List.map_cons, List.foldlM_cons]
    simp [jsonToIdList, decodeStrList_map]
    exact ih _

lemma decodeTips_map (l : List (String × Tip))
    (h : (l.map Prod.fst).Nodup) :
    decodeTips (some (.obj (l.map (fun kv => (kv.1, kv.2.to_json))))) =
      some l := by
  simp only [decodeTips]
  rw [tips_foldlM]
  rw [foldl_dictSet_eq l [] (by simp) h]
  simp

lemma decodeSections_map (l : List (String × List String))
    (h : (l.map Prod.fst).Nodup) :
    decodeSections
        (some (.obj (l.map (fun kv => (kv.1, JsonValue.arr
          (kv.2.map .str)))))) = some l := by
  simp only [decodeSections]
  rw [sections_foldlM]
  rw [foldl_dictSet_eq l [] (by simp) h]
  simp

/-- C7.  `Playbook.loads (p.dumps())` reconstructs a playbook identical to
`p` — tips (all six fields), section index and `next_id` counter — for
every playbook whose tip map and section index are genuine dicts (unique
keys), i.e. every state the `Playbook` class can hold. -/
theorem dumps_loads_round_trip (p : Playbook)
    (h1 : (p.tips.map Prod.fst).Nodup)
    (h2 : (p.sections.map Prod.fst).Nodup) :
    Playbook.loads p.dumps = some p := by
  show Playbook.from_dict
    [("tips", JsonValue.obj (p.tips.map (fun kv => (kv.1, kv.2.to_json)))),
      ("sections", JsonValue.obj (p.sections.map
        (fun kv => (kv.1, JsonValue.arr (kv.2.map JsonValue.str))))),
      ("next_id", JsonValue.num p.next_id)] = some p
  simp [Playbook.from_dict, dictGet, decodeTips_map p.tips h1,
    decodeSections_map p.sections h2, decodeNextId]

/-- C7, witness: the round trip on a concrete two-tip playbook. -/
theorem dumps_loads_round_trip_witness :
    Playbook.loads (Playbook.mk
      [("api-00001", Tip.mk "api-00001" "API Usage" "tip one" ["x"] "t1"
        "t2"),
        ("custom", Tip.mk "custom" "Coding" "tip two" [] "t3" "t4")]
      [("API Usage", ["api-00001"]), ("Coding", ["custom"])] 1).dumps =
    some (Playbook.mk
      [("api-00001", Tip.mk "api-00001" "API Usage" "tip one" ["x"] "t1"
        "t2"),
        ("custom", Tip.mk "custom" "Coding" "tip two" [] "t3" "t4")]
      [("API Usage", ["api-00001"]), ("Coding", ["custom"])] 1) :=
  dumps_loads_round_trip _ (by decide) (by decide)

/-- `add_tip` succeeds whenever the section has a first word (the only
exception source is `_generate_id` on a first-word-less section). -/
lemma add_tip_isSome (p : Playbook) (s c : String) (tid : Option String)
    (tags : List String) (now : String) (h : (firstWord s).isSome) :
    (p.add_tip s c tid tags now).isSome := by
  obtain ⟨w, hw⟩ := Option.isSome_iff_exists.mp h
  cases tid with
  | none => simp [Playbook.add_tip, Playbook.generate_id, hw]
  | some t =>
    by_cases htaken : (dictGet p.tips t).isSome
    · simp [Playbook.add_tip, htaken, Playbook.generate_id, hw]
    · simp [Playbook.add_tip, htaken]

/-- `_apply_operation` raises only through an ADD whose section lacks a
first word; every other operation — including unknown types and
missing-id UPDATE/TAG/REMOVE — returns normally. -/
lemma apply_operation_isSome (p : Playbook) (op : DeltaOperation)
    (now : String)
    (h : strUpper op.type = "ADD" → (firstWord op.sectionName).isSome) :
    (p.apply_operation op now).isSome := by
  by_cases hADD : strUpper op.type = "ADD"
  · simp only [Playbook.apply_operation, hADD, if_pos]
    exact add_tip_isSome _ _ _ _ _ _ (h hADD)
  · simp only [Playbook.apply_operation]
    rw [if_neg hADD]
    split
    · cases htid : op.tip_id <;> simp
    · split
      · cases htid : op.tip_id <;> simp
      · split
        · cases htid : op.tip_id <;> simp
        · simp

/-- C2, amended.  `apply_delta` raises no exception provided every ADD
operation's section has a whitespace-delimited first word (an ADD with an
empty or whitespace-only section and no usable `tip_id` raises
`IndexError`); UPDATE/TAG/REMOVE operations with a missing or unknown
`tip_id` are silently skipped as no-ops; and all other valid operations in
a batch are still applied, in the batch's order (a batch of
[valid ADD, unknown-id UPDATE, valid ADD] applies both ADDs). -/
theorem apply_delta_skips_malformed_under_section_guard :
    (∀ (p : Playbook) (delta : DeltaBatch) (now : String),
      (∀ op ∈ delta.operations, strUpper op.type = "ADD" →
        (firstWord op.sectionName).isSome) →
      (p.apply_delta delta now).isSome) ∧
    (∀ (p : Playbook) (op : DeltaOperation) (now : String),
      (strUpper op.type = "UPDATE" ∨ strUpper op.type = "TAG" ∨
        strUpper op.type = "REMOVE") →
      (∀ tid, op.tip_id = some tid → dictGet p.tips tid = none) →
      p.apply_operation op now = some p) ∧
    Playbook.empty.apply_delta (DeltaBatch.mk "r"
      [DeltaOperation.mk "ADD" "Strategy" (some "c1") (some "t1") [],
        DeltaOperation.mk "UPDATE" "" (some "x") (some "zzz") [],
        DeltaOperation.mk "ADD" "Strategy" (some "c2") (some "t2") []]) ""
      =
    some (Playbook.mk
      [("t1", Tip.mk "t1" "Strategy" "c1" [] "" ""),
        ("t2", Tip.mk "t2" "Strategy" "c2" [] "" "")]
      [("Strategy", ["t1", "t2"])] 0) := by
  refine ⟨?_, ?_, by rfl⟩
  · intro p delta now hguard
    obtain ⟨reasoning, ops⟩ := delta
    simp only [Playbook.apply_delta] at hguard ⊢
    induction ops generalizing p with
    | nil => simp
    | cons op rest ih =>
      have hop : (p.apply_operation op now).isSome :=
        apply_operation_isSome p op now
          (hguard op (List.mem_cons_self op rest))
      obtain ⟨q, hq⟩ := Option.isSome_iff_exists.mp hop
      rw [List.foldlM_cons, hq]
      exact ih q (fun o ho => hguard o (List.mem_cons_of_mem op ho))
  · intro p op now htype htid
    rcases htype with h | h | h
    · simp [Playbook.apply_operation, h]
      cases hid : op.tip_id with
      | none => rfl
      | some tid => simp [Playbook.update_tip, htid tid hid]
    · simp [Playbook.apply_operation, h]
      cases hid : op.tip_id with
      | none => rfl
      | some tid => simp [Playbook.tag_tip, htid tid hid]
    · simp [Playbook.apply_operation, h]
      cases hid : op.tip_id with
      | none => rfl
      | some tid => simp [Playbook.remove_tip, htid tid hid]

/-- C2 (amended), witness: a guarded one-ADD batch applies without raising,
and a REMOVE naming an unknown id is a no-op. -/
theorem apply_delta_skips_malformed_under_section_guard_witness :
    (Playbook.empty.apply_delta (DeltaBatch.mk "r"
      [DeltaOperation.mk "ADD" "General Advice" (some "c") none []])
      "").isSome ∧
    Playbook.empty.apply_operation
      (DeltaOperation.mk "REMOVE" "" none (some "ghost") []) "" =
      some Playbook.empty :=
  ⟨apply_delta_skips_malformed_under_section_guard.1 Playbook.empty
      (DeltaBatch.mk "r"
        [DeltaOperation.mk "ADD" "General Advice" (some "c") none []]) ""
      (by decide),
    apply_delta_skips_malformed_under_section_guard.2.1 Playbook.empty
      (DeltaOperation.mk "REMOVE" "" none (some "ghost") []) ""
      (Or.inr (Or.inr rfl)) (fun tid _ => rfl)⟩

end OpenCE
